import Mathlib

/-!
Verification of the chunked bank-transaction ingestion pipeline.

Shallow embedding of the Python sources:
  - src/correct_fixed_processor.py  (CorrectFixedProcessor)
  - src/robust_date_processor.py    (parse_transaction_date, parse_customer_dob, main)
  - src/enhanced_processor_final_fixed.py (FinalFixedEnhancedBatchProcessor)
  - src/database.py                 (DatabaseClient.insert_transaction_batch)
  - src/error_handler.py            (ErrorHandler.retry_operation, handle_error)
  - src/final_working_processor.py  (FinalBatchProcessor.process_large_dataset)

Missing CSV cells (pandas NaN) are modelled as `none : Option String`;
a present cell is `some s`.  Dates are plain year/month/day records.
The numeric value of a Python float is modelled exactly as a scaled
decimal (mantissa times a power of ten) extended with nan and signed
infinity; no claim depends on binary rounding.  String manipulation is
carried out on the underlying character lists so that every definition
evaluates by kernel reduction.
-/

namespace BankBatch

/-- Characters removed by Python `str.strip` (ASCII whitespace). -/
def isSpaceChar (c : Char) : Bool :=
  c = ' ' || c = '\t' || c = '\n' || c = '\r' || c = '\x0b' || c = '\x0c'

/-- Model of `str.strip`: drop whitespace from both ends. -/
def trimChars (l : List Char) : List Char :=
  ((l.dropWhile isSpaceChar).reverse.dropWhile isSpaceChar).reverse

/-- Split a character list on a separator character, keeping empty
pieces, like `str.split(sep)` on single-character separators. -/
def splitChar (sep : Char) : List Char → List (List Char)
  | [] => [[]]
  | c :: cs =>
    match splitChar sep cs with
    | [] => [[c]]
    | g :: gs => if c = sep then [] :: g :: gs else (c :: g) :: gs

/-- Model of `str.replace(x, "")`: remove every occurrence of one
character. -/
def removeChar (x : Char) (l : List Char) : List Char :=
  l.filter (fun c => !(c = x))

/-- Lower-case one ASCII character (`str.lower`). -/
def lowerChar (c : Char) : Char :=
  if 'A' ≤ c ∧ c ≤ 'Z' then Char.ofNat (c.toNat + 32) else c

/-- Digit value of a character, if it is a decimal digit. -/
def charDigit (c : Char) : Option Nat :=
  if 48 ≤ c.toNat ∧ c.toNat ≤ 57 then some (c.toNat - 48) else none

/-- Accumulator loop for reading a digit string. -/
def digitsAux : List Char → Nat → Option Nat
  | [], acc => some acc
  | c :: cs, acc =>
    match charDigit c with
    | some d => digitsAux cs (acc * 10 + d)
    | none => none

/-- Read a non-empty all-digit character list as a natural number. -/
def digitsToNat : List Char → Option Nat
  | [] => none
  | c :: cs => digitsAux (c :: cs) 0

/-- Take a leading `+` or `-` sign off a numeric literal. -/
def stripSignChars : List Char → Bool × List Char
  | '-' :: cs => (true, cs)
  | '+' :: cs => (false, cs)
  | cs => (false, cs)

/-- Calendar date as produced by `pandas.Timestamp.date()`. -/
structure Date where
  year : Nat
  month : Nat
  day : Nat
  deriving DecidableEq, Repr

/-- Gregorian leap-year rule (as used by the datetime library). -/
def isLeapYear (y : Nat) : Bool :=
  y % 4 = 0 && (y % 100 ≠ 0 || y % 400 = 0)

/-- Number of days of month `m` in year `y`. -/
def daysInMonth (y m : Nat) : Nat :=
  if m = 2 then (if isLeapYear y then 29 else 28)
  else if m = 4 ∨ m = 6 ∨ m = 9 ∨ m = 11 then 30
  else 31

/-- Validity check a strptime-style parse performs on the assembled fields. -/
def validDate (y m d : Nat) : Bool :=
  1 ≤ m && m ≤ 12 && 1 ≤ d && d ≤ daysInMonth y m

/-- Field order of a date format string such as `%m/%d/%y`. -/
inductive DOrder where
  | mdy
  | dmy
  | ymd
  deriving DecidableEq, Repr

/-- Date format descriptor: field order, separator character, and whether
the year directive is four-digit `%Y` (`y4 = true`) or two-digit `%y`. -/
structure Fmt where
  order : DOrder
  sep : Char
  y4 : Bool
  deriving DecidableEq, Repr

def fmtMDY2 : Fmt := ⟨.mdy, '/', false⟩
def fmtDMY2 : Fmt := ⟨.dmy, '/', false⟩
def fmtMDY4 : Fmt := ⟨.mdy, '/', true⟩
def fmtDMY4 : Fmt := ⟨.dmy, '/', true⟩
def fmtYMD4 : Fmt := ⟨.ymd, '-', true⟩
def fmtMDY4dash : Fmt := ⟨.mdy, '-', true⟩
def fmtDMY4dash : Fmt := ⟨.dmy, '-', true⟩

/-- Parse a month or day token: one or two digits (the `%m` and `%d`
directives match at most two digits). -/
def parseMD (l : List Char) : Option Nat :=
  if 2 < l.length then none else digitsToNat l

/-- Parse a two-digit `%y` year token using the POSIX pivot that pandas
and Python strptime share: 00-68 means 20xx, 69-99 means 19xx. -/
def parseY2 (l : List Char) : Option Nat :=
  if l.length = 2 then
    (digitsToNat l).map (fun n => if n ≤ 68 then 2000 + n else 1900 + n)
  else none

/-- Parse a four-digit `%Y` year token. -/
def parseY4 (l : List Char) : Option Nat :=
  if l.length = 4 then digitsToNat l else none

/-- Model of `pd.to_datetime(s, format=fmt)` for the slash/dash formats
used by the processors, applied to the characters of the (stripped)
input.  The whole string must match (pandas parses exactly); the
assembled date must be a real calendar date; years outside 1678-2261
raise `OutOfBoundsDatetime` (the pandas Timestamp range, approximated at
year granularity), which every caller catches, hence `none`. -/
def strptime (f : Fmt) (l : List Char) : Option Date :=
  match splitChar f.sep l with
  | [p1, p2, p3] =>
    let py := if f.y4 then parseY4 else parseY2
    let fields : Option (Nat × Nat × Nat) :=
      match f.order with
      | .mdy => do
          let m ← parseMD p1
          let d ← parseMD p2
          let y ← py p3
          pure (y, m, d)
      | .dmy => do
          let d ← parseMD p1
          let m ← parseMD p2
          let y ← py p3
          pure (y, m, d)
      | .ymd => do
          let y ← py p1
          let m ← parseMD p2
          let d ← parseMD p3
          pure (y, m, d)
    match fields with
    | some (y, m, d) =>
        if validDate y m d && 1678 ≤ y && y ≤ 2261 then some ⟨y, m, d⟩ else none
    | none => none
  | _ => none

/-- CorrectFixedProcessor.convert_transaction_date: `pd.isna` / falsy
guard, strip, parse as `%m/%d/%y`, accept only years 2000-2020. -/
def convert_transaction_date (cell : Option String) : Option Date :=
  match cell with
  | none => none
  | some s =>
    if s = "" then none
    else
      match strptime fmtMDY2 (trimChars s.data) with
      | some d => if 2000 ≤ d.year ∧ d.year ≤ 2020 then some d else none
      | none => none

/-- CorrectFixedProcessor.convert_customer_dob: `pd.isna` / falsy guard,
strip, parse as `%d/%m/%y`, accept only years 1900-2010. -/
def convert_customer_dob (cell : Option String) : Option Date :=
  match cell with
  | none => none
  | some s =>
    if s = "" then none
    else
      match strptime fmtDMY2 (trimChars s.data) with
      | some d => if 1900 ≤ d.year ∧ d.year ≤ 2010 then some d else none
      | none => none

/-- robust_date_processor two-digit-year correction: formats ending in
`/%y` whose parse lands after 2020 are shifted back by one century. -/
def fixTwoDigitYear (f : Fmt) (d : Date) : Date :=
  if !f.y4 && 2020 < d.year then ⟨d.year - 100, d.month, d.day⟩ else d

/-- Candidate-format loop shared by robust_date_processor's two parsers:
try each format, apply the two-digit-year fix, and accept the first
result whose year lies inside the window lo-hi; otherwise keep trying. -/
def tryFormatsWindow (lo hi : Nat) : List Fmt → List Char → Option Date
  | [], _ => none
  | f :: fs, l =>
    match strptime f l with
    | some d0 =>
        let d := fixTwoDigitYear f d0
        if lo ≤ d.year ∧ d.year ≤ hi then some d else tryFormatsWindow lo hi fs l
    | none => tryFormatsWindow lo hi fs l

/-- robust_date_processor.parse_transaction_date: formats `%m/%d/%y`,
`%m/%d/%Y`, `%d/%m/%y`, `%d/%m/%Y`, year window 2000-2020. -/
def parse_transaction_date (cell : Option String) : Option Date :=
  match cell with
  | none => none
  | some s =>
    if s = "" then none
    else tryFormatsWindow 2000 2020 [fmtMDY2, fmtMDY4, fmtDMY2, fmtDMY4] (trimChars s.data)

/-- robust_date_processor.parse_customer_dob: formats `%d/%m/%y`,
`%d/%m/%Y`, `%m/%d/%y`, `%m/%d/%Y`, year window 1800-2010. -/
def parse_customer_dob (cell : Option String) : Option Date :=
  match cell with
  | none => none
  | some s =>
    if s = "" then none
    else tryFormatsWindow 1800 2010 [fmtDMY2, fmtDMY4, fmtMDY2, fmtMDY4] (trimChars s.data)

/-- Candidate format list chosen by smart_date_conversion per field name. -/
def smartFormats (field_name : String) : List Fmt :=
  if field_name = "TransactionDate" then [fmtMDY2, fmtDMY2, fmtYMD4, fmtMDY4dash]
  else if field_name = "CustomerDOB" then [fmtDMY2, fmtMDY2, fmtYMD4, fmtDMY4dash]
  else [fmtMDY2, fmtDMY2, fmtYMD4]

/-- Year-window acceptance test smart_date_conversion applies to a
candidate parse: 2000-2020 for TransactionDate, 1930-2010 for
CustomerDOB, and unconditional acceptance for any other field name. -/
def smartAccept (field_name : String) (d : Date) : Bool :=
  if field_name = "TransactionDate" then decide (2000 ≤ d.year ∧ d.year ≤ 2020)
  else if field_name = "CustomerDOB" then decide (1930 ≤ d.year ∧ d.year ≤ 2010)
  else true

/-- Candidate loop of smart_date_conversion (no two-digit-year shift). -/
def trySmartFormats (field_name : String) : List Fmt → List Char → Option Date
  | [], _ => none
  | f :: fs, l =>
    match strptime f l with
    | some d => if smartAccept field_name d then some d else trySmartFormats field_name fs l
    | none => trySmartFormats field_name fs l

/-- Model of the bare `pd.to_datetime(date_str)` automatic parse used as
smart_date_conversion's final fallback, restricted here to ISO
`YYYY-MM-DD` inputs.  The real automatic parser accepts strictly more
encodings; like the model it applies no year-window check at all. -/
def pandasAutoParse (l : List Char) : Option Date :=
  strptime fmtYMD4 l

/-- FinalFixedEnhancedBatchProcessor.smart_date_conversion: null/empty
guard, strip, field-specific candidate formats with field-specific
windows, then the unchecked automatic-parse fallback. -/
def smart_date_conversion (cell : Option String) (field_name : String) : Option Date :=
  match cell with
  | none => none
  | some s =>
    if s = "" then none
    else
      let t := trimChars s.data
      match trySmartFormats field_name (smartFormats field_name) t with
      | some d => some d
      | none => pandasAutoParse t

/-- Exact decimal value `m * 10 ^ e`, the numeric reading of a parsed
float literal.  Values are kept normalized (`normDec`): the mantissa of a
non-zero value is never divisible by ten, and zero is `⟨0, 0⟩`, so two
equal decimal values have equal representations. -/
structure Dec where
  m : Int
  e : Int
  deriving DecidableEq, Repr

/-- Strip factors of ten from a mantissa, moving them into the exponent;
the fuel is any bound on the number of digits. -/
def stripZeros : Nat → Int → Int → Int × Int
  | 0, m, e => (m, e)
  | fuel + 1, m, e =>
    if m ≠ 0 ∧ m % 10 = 0 then stripZeros fuel (m / 10) (e + 1) else (m, e)

/-- Normalized decimal value `m * 10 ^ e`. -/
def normDec (m e : Int) : Dec :=
  if m = 0 then ⟨0, 0⟩
  else
    let p := stripZeros m.natAbs m e
    ⟨p.1, p.2⟩

/-- Value of a Python float: an exact decimal, nan, or signed infinity. -/
inductive PyFloat where
  | finite : Dec → PyFloat
  | nan : PyFloat
  | inf : Bool → PyFloat
  deriving DecidableEq, Repr

/-- Apply a parsed sign to a mantissa. -/
def applySign (neg : Bool) (m : Int) : Int :=
  if neg then -m else m

/-- Parse the mantissa `digits`, `digits.digits`, `digits.` or `.digits`
of a Python float literal, as an unnormalized mantissa/exponent pair. -/
def parseMantissa (l : List Char) : Option (Int × Int) :=
  match splitChar '.' l with
  | [i] => (digitsToNat i).map (fun n => ((n : Int), (0 : Int)))
  | [i, f] =>
    if i = [] ∧ f = [] then none
    else do
      let ni ← if i = [] then some 0 else digitsToNat i
      let nf ← if f = [] then some 0 else digitsToNat f
      pure (((ni * 10 ^ f.length + nf : Nat) : Int), -(f.length : Int))
  | _ => none

/-- Parse the signed integer exponent of a Python float literal. -/
def parseExponent (l : List Char) : Option Int :=
  let p := stripSignChars l
  (digitsToNat p.2).map (fun n => if p.1 then -(n : Int) else (n : Int))

/-- Model of Python's `float(str)` constructor: strips whitespace, takes
an optional sign, accepts `inf`, `infinity` and `nan` case-insensitively,
and otherwise a decimal mantissa with optional `e`-exponent.  Anything
else raises ValueError, modelled as `none`.  (Digit-group underscores are
not modelled; no caller in this repository produces them.) -/
def pythonFloat (l : List Char) : Option PyFloat :=
  let t := trimChars l
  let p := stripSignChars t
  let low := p.2.map lowerChar
  if low = ['i', 'n', 'f'] ∨ low = ['i', 'n', 'f', 'i', 'n', 'i', 't', 'y'] then
    some (.inf p.1)
  else if low = ['n', 'a', 'n'] then some .nan
  else
    match splitChar 'e' low with
    | [mant] =>
      (parseMantissa mant).map (fun q => .finite (normDec (applySign p.1 q.1) q.2))
    | [mant, ex] => do
      let q ← parseMantissa mant
      let e ← parseExponent ex
      pure (.finite (normDec (applySign p.1 q.1) (q.2 + e)))
    | _ => none

/-- FinalFixedEnhancedBatchProcessor.robust_numeric_conversion: null or
empty input returns None; otherwise commas and spaces are removed, the
string is stripped, and `float` is attempted, with parse failure also
returning None. -/
def robust_numeric_conversion (cell : Option String) : Option PyFloat :=
  match cell with
  | none => none
  | some s =>
    if s = "" then none
    else pythonFloat (trimChars (removeChar ' ' (removeChar ',' s.data)))

/-- Applying `float` to a raw CSV cell as CorrectFixedProcessor does:
a missing cell is the pandas float NaN, and `float(nan)` succeeds and
returns nan rather than raising. -/
def pyFloatCell (cell : Option String) : Option PyFloat :=
  match cell with
  | none => some .nan
  | some s => pythonFloat s.data

/-- Applying `str` to a raw CSV cell: a missing cell is the float NaN and
stringifies to "nan". -/
def pyStrCell (cell : Option String) : String :=
  cell.getD "nan"

/-- Raw CSV row of bank_transactions.csv as iterated by the processors.
Field names follow the source column names; `TransactionAmountINR`
stands for the column named "TransactionAmount (INR)".  A missing cell
(pandas NaN) is `none`. -/
structure RawRow where
  TransactionID : Option String
  CustomerID : Option String
  CustomerDOB : Option String
  CustGender : Option String
  CustLocation : Option String
  CustAccountBalance : Option String
  TransactionDate : Option String
  TransactionTime : Option String
  TransactionAmountINR : Option String
  deriving DecidableEq, Repr

/-- Row stored in the transactions table by the chunk processors. -/
structure StoredTransaction where
  transaction_id : String
  customer_id : String
  customer_dob : Date
  cust_gender : String
  cust_location : String
  cust_account_balance : PyFloat
  transaction_date : Date
  transaction_time : String
  transaction_amount : PyFloat
  deriving DecidableEq, Repr

/-- Outcome of processing one raw row: stored, or rejected in exactly one
error category (date, numeric, or the catch-all "other" bucket). -/
inductive RowOutcome where
  | stored : StoredTransaction → RowOutcome
  | dateError : RowOutcome
  | numericError : RowOutcome
  | otherError : RowOutcome
  deriving DecidableEq, Repr

/-- Model of Python `str[:1]` on a cell already known to be present. -/
def takeOneChar (s : String) : String :=
  String.mk (s.data.take 1)

/-- Per-row body of FinalFixedEnhancedBatchProcessor.
store_processed_data_postgres: transaction date first (reject as a date
error), then both numeric fields (reject as a numeric error), then
defaults for the optional fields, and last the missing/empty identifier
check, whose rejections are counted in other_errors. -/
def storeProcessedRow (r : RawRow) : RowOutcome :=
  match smart_date_conversion r.TransactionDate "TransactionDate" with
  | none => .dateError
  | some transaction_date =>
    let customer_dob := smart_date_conversion r.CustomerDOB "CustomerDOB"
    match robust_numeric_conversion r.CustAccountBalance,
          robust_numeric_conversion r.TransactionAmountINR with
    | some cust_balance, some transaction_amount =>
      let cust_gender := match r.CustGender with
        | some g => takeOneChar g
        | none => "U"
      let cust_location := r.CustLocation.getD "Unknown"
      let transaction_time := r.TransactionTime.getD "000000"
      let customer_dob := customer_dob.getD ⟨1900, 1, 1⟩
      match r.TransactionID, r.CustomerID with
      | some tid, some cid =>
        if tid = "" ∨ cid = "" then .otherError
        else .stored {
          transaction_id := tid
          customer_id := cid
          customer_dob := customer_dob
          cust_gender := cust_gender
          cust_location := cust_location
          cust_account_balance := cust_balance
          transaction_date := transaction_date
          transaction_time := transaction_time
          transaction_amount := transaction_amount }
      | _, _ => .otherError
    | _, _ => .numericError

/-- Per-row body of CorrectFixedProcessor.process_chunk: transaction date
first (date error), then `float` on both numeric columns (numeric
error), then the insert; `str` of a missing identifier cell yields the
string "nan", so missing identifiers do not reject a row here. -/
def processRowCorrect (r : RawRow) : RowOutcome :=
  match convert_transaction_date r.TransactionDate with
  | none => .dateError
  | some trans_date =>
    let cust_dob := (convert_customer_dob r.CustomerDOB).getD ⟨1900, 1, 1⟩
    match pyFloatCell r.CustAccountBalance, pyFloatCell r.TransactionAmountINR with
    | some balance, some amount =>
      .stored {
        transaction_id := pyStrCell r.TransactionID
        customer_id := pyStrCell r.CustomerID
        customer_dob := cust_dob
        cust_gender := match r.CustGender with
          | some g => takeOneChar g
          | none => "U"
        cust_location := r.CustLocation.getD "Unknown"
        cust_account_balance := balance
        transaction_date := trans_date
        transaction_time := r.TransactionTime.getD "000000"
        transaction_amount := amount }
    | _, _ => .numericError

/-- Per-chunk counters kept by CorrectFixedProcessor.process_chunk. -/
structure ChunkStats where
  seen : Nat
  stored : Nat
  dateErrors : Nat
  numericErrors : Nat
  otherErrors : Nat
  deriving DecidableEq, Repr

/-- Fold one row outcome into the chunk counters. -/
def chunkStep (st : ChunkStats) (o : RowOutcome) : ChunkStats :=
  match o with
  | .stored _ => { st with seen := st.seen + 1, stored := st.stored + 1 }
  | .dateError => { st with seen := st.seen + 1, dateErrors := st.dateErrors + 1 }
  | .numericError => { st with seen := st.seen + 1, numericErrors := st.numericErrors + 1 }
  | .otherError => { st with seen := st.seen + 1, otherErrors := st.otherErrors + 1 }

/-- CorrectFixedProcessor.process_chunk restricted to its per-row
accounting: every row of the chunk is classified and counted in exactly
one bucket. -/
def process_chunk (rows : List RawRow) : ChunkStats :=
  rows.foldl (fun st r => chunkStep st (processRowCorrect r)) ⟨0, 0, 0, 0, 0⟩

/-- One `INSERT ... ON CONFLICT (transaction_id) DO NOTHING` against the
transactions table, modelled as a list of committed rows: if a row with
the same natural key is already present the statement is a no-op,
otherwise the row is appended.  No duplicate-key error can arise. -/
def insertOrIgnore (table : List StoredTransaction) (t : StoredTransaction) :
    List StoredTransaction :=
  if table.any (fun u => u.transaction_id = t.transaction_id) then table
  else table ++ [t]

/-- Insert loop of CorrectFixedProcessor.process_chunk over the valid
rows of a batch: each row is submitted with insert-or-ignore on
transaction_id. -/
def insertBatchOnConflictDoNothing (table : List StoredTransaction)
    (batch : List StoredTransaction) : List StoredTransaction :=
  batch.foldl insertOrIgnore table

/-- Row shape inserted by DatabaseClient.insert_transaction_batch. -/
structure DbTransaction where
  transaction_id : String
  customer_id : String
  transaction_amount : PyFloat
  transaction_date : Date
  transaction_time : String
  processed_at : Option String
  deriving DecidableEq, Repr

/-- The processed_at stamping loop of insert_transaction_batch: rows
without a processed_at get the current timestamp. -/
def stampProcessedAt (now : String) (t : DbTransaction) : DbTransaction :=
  match t.processed_at with
  | some _ => t
  | none => { t with processed_at := some now }

/-- Whether a plain executemany INSERT of `rows` into `table` hits a
primary-key conflict on transaction_id, against the existing table or
between two rows of the batch itself: this is the condition under which
PostgreSQL raises IntegrityError for the schema's natural key. -/
def keyClash (table : List DbTransaction) : List DbTransaction → Bool
  | [] => false
  | t :: ts =>
    table.any (fun u => u.transaction_id = t.transaction_id) || keyClash (table ++ [t]) ts

/-- DatabaseClient.insert_transaction_batch: empty batch returns 0; the
batch is stamped with processed_at and submitted as one plain INSERT (no
conflict clause) followed by commit.  Any psycopg2 error, including the
IntegrityError a duplicate key raises, is caught, the whole transaction
is rolled back and 0 is returned; `dbFailure` stands for the
non-integrity database error paths.  On success the return value is the
length of the submitted batch. -/
def insert_transaction_batch (now : String) (table : List DbTransaction)
    (dbFailure : Bool) (batch : List DbTransaction) :
    List DbTransaction × Nat :=
  if batch.isEmpty then (table, 0)
  else
    let rows := batch.map (stampProcessedAt now)
    if keyClash table rows || dbFailure then (table, 0)
    else (table ++ rows, batch.length)

/-- Backoff delay before retry attempt `attempt` in
ErrorHandler.retry_operation: `wait_time = 2 ** attempt` seconds. -/
def waitTime (attempt : Nat) : Nat :=
  2 ^ attempt

/-- Retry loop of ErrorHandler.retry_operation, with the fallible
operation modelled as a map from attempt index to its result (`none` for
a raised exception): sleep, call, return the result on success, move to
the next attempt on failure, and return None once the attempts are
exhausted. -/
def retryFrom (op : Nat → Option α) (attempt : Nat) : Nat → Option α
  | 0 => none
  | remaining + 1 =>
    match op attempt with
    | some v => some v
    | none => retryFrom op (attempt + 1) remaining

/-- ErrorHandler.retry_operation with its attempt bound. -/
def retry_operation (op : Nat → Option α) (max_retries : Nat) : Option α :=
  retryFrom op 0 max_retries

/-- Possible non-raising return values of ErrorHandler.handle_error. -/
inductive HandleResult where
  | opResult : Option Nat → HandleResult
  | trueResult : HandleResult
  | noneResult : HandleResult
  deriving DecidableEq, Repr

/-- Error types ErrorHandler.handle_error retries as transient. -/
def transientTypes : List String :=
  ["network_error", "timeout_error", "database_connection", "processing_error"]

/-- Error types handle_error logs and absorbs as data errors. -/
def dataErrorTypes : List String :=
  ["data_validation_error", "business_rule_violation"]

/-- Error types handle_error treats as critical by raising RuntimeError. -/
def criticalTypes : List String :=
  ["file_not_found", "configuration_error"]

/-- ErrorHandler.handle_error: transient types run the retry policy (or
return True when no operation is supplied), data errors return None, the
critical types raise RuntimeError (the Except error branch), and unknown
types return True. -/
def handle_error (error_type : String) (operation : Option (Nat → Option Nat)) :
    Except String HandleResult :=
  if error_type ∈ transientTypes then
    match operation with
    | some op => .ok (.opResult (retry_operation op 3))
    | none => .ok .trueResult
  else if error_type ∈ dataErrorTypes then .ok .noneResult
  else if error_type ∈ criticalTypes then .error "RuntimeError"
  else .ok .trueResult

/-- Chunk loop of FinalBatchProcessor.process_large_dataset combined with
the retry policy: each chunk's sink submission is retried, a chunk whose
retries exhaust contributes the recorded insert count 0, and the loop
always moves on to the next chunk.  Returns the number of chunks
processed and the accumulated stored total. -/
def runChunksWithRetry (chunkOps : List (Nat → Option Nat)) : Nat × Nat :=
  chunkOps.foldl
    (fun acc op => (acc.1 + 1, acc.2 + (retry_operation op 3).getD 0)) (0, 0)

/-- Chunk loop with a record-count ceiling, as in robust_date_processor
main and FinalBatchProcessor.process_large_dataset: before each chunk the
accumulated total is compared against the limit and the loop breaks once
the total reaches or exceeds it; otherwise the chunk's stored count is
added.  Ceiling termination returns the total normally. -/
def process_with_ceiling (limit : Nat) : Nat → List Nat → Nat
  | total, [] => total
  | total, c :: cs =>
    if limit ≤ total then total
    else process_with_ceiling limit (total + c) cs

/-! Helper lemmas about the insert-or-ignore sink. -/

theorem insertOrIgnore_any_mono (table : List StoredTransaction) (t : StoredTransaction)
    (p : StoredTransaction → Bool) (h : table.any p = true) :
    (insertOrIgnore table t).any p = true := by
  unfold insertOrIgnore
  split
  · exact h
  · simp [List.any_append, h]

theorem insertOrIgnore_any_key (table : List StoredTransaction) (t : StoredTransaction) :
    (insertOrIgnore table t).any (fun u => u.transaction_id = t.transaction_id) = true := by
  unfold insertOrIgnore
  split
  next h => exact h
  next h => simp [List.any_append]

theorem insertBatch_any_mono (batch : List StoredTransaction) :
    ∀ (table : List StoredTransaction) (p : StoredTransaction → Bool),
      table.any p = true → (insertBatchOnConflictDoNothing table batch).any p = true := by
  induction batch with
  | nil => intro table p h; exact h
  | cons b bs ih =>
    intro table p h
    exact ih (insertOrIgnore table b) p (insertOrIgnore_any_mono table b p h)

theorem insertBatch_key_present (batch : List StoredTransaction) :
    ∀ (table : List StoredTransaction) (t : StoredTransaction), t ∈ batch →
      (insertBatchOnConflictDoNothing table batch).any
        (fun u => u.transaction_id = t.transaction_id) = true := by
  induction batch with
  | nil => intro _ _ h; cases h
  | cons b bs ih =>
    intro table t h
    rcases List.mem_cons.mp h with rfl | h
    · exact insertBatch_any_mono bs (insertOrIgnore table t) _ (insertOrIgnore_any_key table t)
    · exact ih (insertOrIgnore table b) t h

theorem insertBatch_noop (batch : List StoredTransaction) :
    ∀ table : List StoredTransaction,
      (∀ t ∈ batch, table.any (fun u => u.transaction_id = t.transaction_id) = true) →
      insertBatchOnConflictDoNothing table batch = table := by
  induction batch with
  | nil => intro table _; rfl
  | cons b bs ih =>
    intro table h
    have hb : insertOrIgnore table b = table := by
      unfold insertOrIgnore
      simp [h b (List.mem_cons_self b bs)]
    show insertBatchOnConflictDoNothing (insertOrIgnore table b) bs = table
    rw [hb]
    exact ih table (fun t ht => h t (List.mem_cons_of_mem b ht))

/-- C1.  Re-ingesting an identical batch of valid normalized transactions
a second time leaves the sink unchanged: the insert used by
CorrectFixedProcessor.process_chunk is insert-or-ignore keyed on the
natural key transaction_id, so running it on the same batch twice commits
exactly the rows one run commits, the total stored row count is
unchanged, and (the operation being total) no duplicate-key error is
raised and nothing is double-counted. -/
theorem insert_batch_idempotent (table batch : List StoredTransaction) :
    insertBatchOnConflictDoNothing (insertBatchOnConflictDoNothing table batch) batch =
      insertBatchOnConflictDoNothing table batch ∧
    (insertBatchOnConflictDoNothing (insertBatchOnConflictDoNothing table batch) batch).length =
      (insertBatchOnConflictDoNothing table batch).length := by
  have h := insertBatch_noop batch (insertBatchOnConflictDoNothing table batch)
    (fun t ht => insertBatch_key_present batch table t ht)
  exact ⟨h, by rw [h]⟩

/-- C2.  Two-digit-year disambiguation on the spec's witness inputs:
"2/8/16" in the transaction-date role parses month-first inside the
2000-2020 window to 2016-02-08 (not 1916-02-08), in both the fixed and
the robust parser; "26/11/96" in the birth-date role parses day-first
inside the window to 1996-11-26, and the month-first candidate format
fails on it because 26 is not a valid month. -/
theorem two_digit_year_disambiguation :
    convert_transaction_date (some "2/8/16") = some ⟨2016, 2, 8⟩ ∧
    parse_transaction_date (some "2/8/16") = some ⟨2016, 2, 8⟩ ∧
    convert_customer_dob (some "26/11/96") = some ⟨1996, 11, 26⟩ ∧
    parse_customer_dob (some "26/11/96") = some ⟨1996, 11, 26⟩ ∧
    strptime fmtMDY2 "26/11/96".data = none := by
  decide

/-- C3 counterexample.  smart_date_conversion can return a date whose
year lies far outside the transaction-date window 2000-2020: on
"1890-02-08" every candidate format is rejected by the window check, but
the final automatic-parse fallback then returns 1890-02-08 with no window
check at all, contradicting the claim that an out-of-window parse is
always reported unparseable. -/
theorem smart_date_escapes_window :
    smart_date_conversion (some "1890-02-08") "TransactionDate" = some ⟨1890, 2, 8⟩ ∧
    ¬ (2000 ≤ 1890 ∧ 1890 ≤ 2020) := by
  decide

theorem tryFormatsWindow_year (lo hi : Nat) (fs : List Fmt) :
    ∀ (l : List Char) (d : Date),
      tryFormatsWindow lo hi fs l = some d → lo ≤ d.year ∧ d.year ≤ hi := by
  induction fs with
  | nil => intro l d h; simp [tryFormatsWindow] at h
  | cons f fs ih =>
    intro l d h
    simp only [tryFormatsWindow] at h
    cases hs : strptime f l with
    | none => rw [hs] at h; exact ih l d h
    | some d0 =>
      rw [hs] at h
      dsimp only at h
      by_cases hw : lo ≤ (fixTwoDigitYear f d0).year ∧ (fixTwoDigitYear f d0).year ≤ hi
      · rw [if_pos hw] at h
        cases h
        exact hw
      · rw [if_neg hw] at h
        exact ih l d h

theorem trySmartFormats_accept (fn : String) (fs : List Fmt) :
    ∀ (l : List Char) (d : Date),
      trySmartFormats fn fs l = some d → smartAccept fn d = true := by
  induction fs with
  | nil => intro l d h; simp [trySmartFormats] at h
  | cons f fs ih =>
    intro l d h
    simp only [trySmartFormats] at h
    cases hs : strptime f l with
    | none => rw [hs] at h; exact ih l d h
    | some d0 =>
      rw [hs] at h
      dsimp only at h
      by_cases ha : smartAccept fn d0 = true
      · rw [if_pos ha] at h
        cases h
        exact ha
      · rw [if_neg ha] at h
        exact ih l d h

/-- C3 amended.  The window rule holds for every explicit candidate
format: the robust parsers accept a candidate parse only when its year
lies inside the role window (2000-2020 for transaction dates, 1800-2010
for birth dates) and return None when no candidate is plausible; and any
out-of-window result of smart_date_conversion in the transaction-date
role can only come from its final automatic-parse fallback, which is the
one path that skips the window check. -/
theorem candidate_window_rule (cell : Option String) (d : Date) :
    (parse_transaction_date cell = some d → 2000 ≤ d.year ∧ d.year ≤ 2020) ∧
    (parse_customer_dob cell = some d → 1800 ≤ d.year ∧ d.year ≤ 2010) ∧
    (smart_date_conversion cell "TransactionDate" = some d →
      (2000 ≤ d.year ∧ d.year ≤ 2020) ∨
        ∃ s, cell = some s ∧ pandasAutoParse (trimChars s.data) = some d) := by
  refine ⟨?_, ?_, ?_⟩
  · intro h
    cases cell with
    | none => simp [parse_transaction_date] at h
    | some s =>
      simp only [parse_transaction_date] at h
      by_cases he : s = ""
      · rw [if_pos he] at h; cases h
      · rw [if_neg he] at h
        exact tryFormatsWindow_year 2000 2020 _ _ d h
  · intro h
    cases cell with
    | none => simp [parse_customer_dob] at h
    | some s =>
      simp only [parse_customer_dob] at h
      by_cases he : s = ""
      · rw [if_pos he] at h; cases h
      · rw [if_neg he] at h
        exact tryFormatsWindow_year 1800 2010 _ _ d h
  · intro h
    cases cell with
    | none => simp [smart_date_conversion] at h
    | some s =>
      simp only [smart_date_conversion] at h
      by_cases he : s = ""
      · rw [if_pos he] at h; cases h
      · rw [if_neg he] at h
        cases ht : trySmartFormats "TransactionDate" (smartFormats "TransactionDate")
            (trimChars s.data) with
        | some d0 =>
          rw [ht] at h
          cases h
          left
          have := trySmartFormats_accept "TransactionDate" _ _ _ ht
          simpa [smartAccept] using this
        | none =>
          rw [ht] at h
          exact Or.inr ⟨s, rfl, h⟩

/-- C3 amended, witness: the three implications applied at concrete
inputs. -/
theorem candidate_window_rule_witness :
    (2000 ≤ 2016 ∧ 2016 ≤ 2020) ∧
    (1800 ≤ 1996 ∧ 1996 ≤ 2010) ∧
    ((2000 ≤ 1890 ∧ 1890 ≤ 2020) ∨
      ∃ s, (some "1890-02-08" : Option String) = some s ∧
        pandasAutoParse (trimChars s.data) = some ⟨1890, 2, 8⟩) :=
  ⟨(candidate_window_rule (some "2/8/16") ⟨2016, 2, 8⟩).1 (by decide),
   (candidate_window_rule (some "26/11/96") ⟨1996, 11, 26⟩).2.1 (by decide),
   (candidate_window_rule (some "1890-02-08") ⟨1890, 2, 8⟩).2.2 (by decide)⟩

theorem chunkStep_seen (st : ChunkStats) (o : RowOutcome) :
    (chunkStep st o).seen = st.seen + 1 := by
  cases o <;> rfl

theorem chunkStep_sum (st : ChunkStats) (o : RowOutcome) :
    (chunkStep st o).stored + (chunkStep st o).dateErrors +
      (chunkStep st o).numericErrors + (chunkStep st o).otherErrors =
    st.stored + st.dateErrors + st.numericErrors + st.otherErrors + 1 := by
  cases o <;> simp [chunkStep] <;> omega

theorem process_chunk_fold (rows : List RawRow) :
    ∀ st : ChunkStats,
      (rows.foldl (fun st r => chunkStep st (processRowCorrect r)) st).seen =
        st.seen + rows.length ∧
      (rows.foldl (fun st r => chunkStep st (processRowCorrect r)) st).stored +
        (rows.foldl (fun st r => chunkStep st (processRowCorrect r)) st).dateErrors +
        (rows.foldl (fun st r => chunkStep st (processRowCorrect r)) st).numericErrors +
        (rows.foldl (fun st r => chunkStep st (processRowCorrect r)) st).otherErrors =
      st.stored + st.dateErrors + st.numericErrors + st.otherErrors + rows.length := by
  induction rows with
  | nil => intro st; simp
  | cons r rs ih =>
    intro st
    have h := ih (chunkStep st (processRowCorrect r))
    have hseen := chunkStep_seen st (processRowCorrect r)
    have hsum := chunkStep_sum st (processRowCorrect r)
    simp only [List.foldl_cons, List.length_cons] at *
    constructor
    · rw [h.1, hseen]; omega
    · rw [h.2, hsum]; omega

/-- C4.  Per-chunk accounting of CorrectFixedProcessor.process_chunk:
the rows seen equal the rows of the chunk, and every row lands in exactly
one outcome bucket, so seen = stored + dateErrors + numericErrors +
otherErrors — no row is double-counted and none is silently lost. -/
theorem chunk_accounting (rows : List RawRow) :
    (process_chunk rows).seen = rows.length ∧
    (process_chunk rows).seen =
      (process_chunk rows).stored + (process_chunk rows).dateErrors +
        (process_chunk rows).numericErrors + (process_chunk rows).otherErrors := by
  have h := process_chunk_fold rows ⟨0, 0, 0, 0, 0⟩
  unfold process_chunk
  constructor
  · simpa using h.1
  · have h1 := h.1
    have h2 := h.2
    simp only at h1 h2
    omega

theorem runChunks_shift (ops : List (Nat → Option Nat)) :
    ∀ n s, ops.foldl
        (fun acc op => (acc.1 + 1, acc.2 + (retry_operation op 3).getD 0)) (n, s) =
      (n + ops.length, s + (runChunksWithRetry ops).2) := by
  induction ops with
  | nil => intro n s; simp [runChunksWithRetry]
  | cons o os ih =>
    intro n s
    have h1 := ih (n + 1) (s + (retry_operation o 3).getD 0)
    have h2 := ih 1 ((retry_operation o 3).getD 0)
    simp only [runChunksWithRetry, List.foldl_cons, List.length_cons, Nat.zero_add] at *
    rw [h1, h2]
    simp [Prod.ext_iff]
    omega

/-- C5.  Transient-failure handling per ErrorHandler and the chunk loop:
a failing sink operation is retried up to the fixed bound of 3 attempts,
the backoff delay 2 ^ attempt doubles on each successive attempt, after
exhaustion the retry returns None and handle_error surfaces it for a
transient error type without raising, and in the chunk loop the failed
chunk's recorded insert count is 0 (the run total is unaffected by it)
while every following chunk is still processed. -/
theorem transient_retry_policy (op : Nat → Option Nat)
    (rest : List (Nat → Option Nat)) (hfail : ∀ i, i < 3 → op i = none) :
    retry_operation op 3 = none ∧
    (∀ a, waitTime (a + 1) = 2 * waitTime a) ∧
    handle_error "network_error" (some op) = Except.ok (HandleResult.opResult none) ∧
    (runChunksWithRetry (op :: rest)).1 = rest.length + 1 ∧
    (runChunksWithRetry (op :: rest)).2 = (runChunksWithRetry rest).2 := by
  have hnone : retry_operation op 3 = none := by
    simp [retry_operation, retryFrom, hfail 0 (by omega), hfail 1 (by omega),
      hfail 2 (by omega)]
  have hrun := runChunks_shift rest 1 ((retry_operation op 3).getD 0)
  refine ⟨hnone, ?_, ?_, ?_, ?_⟩
  · intro a
    simp [waitTime, pow_succ]
    ring
  · simp [handle_error, transientTypes, hnone]
  · simp only [runChunksWithRetry, List.foldl_cons, Nat.zero_add] at *
    rw [hrun]
    omega
  · simp only [runChunksWithRetry, List.foldl_cons, Nat.zero_add] at *
    rw [hrun]
    simp [hnone]

/-- C5 witness: the retry policy applied to an operation failing on every
attempt, followed by one succeeding chunk. -/
theorem transient_retry_policy_witness :
    retry_operation (fun _ => (none : Option Nat)) 3 = none ∧
    (∀ a, waitTime (a + 1) = 2 * waitTime a) ∧
    handle_error "network_error" (some (fun _ => none)) =
      Except.ok (HandleResult.opResult none) ∧
    (runChunksWithRetry [fun _ => none, fun _ => some 5]).1 = 2 ∧
    (runChunksWithRetry [fun _ => none, fun _ => some 5]).2 =
      (runChunksWithRetry [fun _ => some 5]).2 :=
  transient_retry_policy (fun _ => none) [fun _ => some 5] (fun _ _ => rfl)

theorem ceiling_aux (limit C : Nat) (chunks : List Nat) :
    ∀ total, (∀ c ∈ chunks, c ≤ C) → total < limit + C →
      process_with_ceiling limit total chunks < limit + C := by
  induction chunks with
  | nil => intro total _ ht; simpa [process_with_ceiling] using ht
  | cons c cs ih =>
    intro total hC ht
    simp only [process_with_ceiling]
    by_cases hl : limit ≤ total
    · rw [if_pos hl]; exact ht
    · rw [if_neg hl]
      apply ih (total + c) (fun x hx => hC x (List.mem_cons_of_mem c hx))
      have hc := hC c (List.mem_cons_self c cs)
      omega

/-- C6.  Record-count ceiling: in the chunk loop the ceiling is checked
between chunks, so whenever every chunk stores at most C rows and the
running total starts below limit + C, the total at completion stays below
limit + C (at most one full chunk of overshoot past the limit); and once
the accumulated total reaches or exceeds the limit no further chunk is
pulled — the loop returns the total unchanged, a normal completion with
no error path. -/
theorem record_ceiling (limit C total : Nat) (chunks : List Nat)
    (hC : ∀ c ∈ chunks, c ≤ C) (ht : total < limit + C) :
    process_with_ceiling limit total chunks < limit + C ∧
    (∀ t c cs, limit ≤ t → process_with_ceiling limit t (c :: cs) = t) := by
  constructor
  · exact ceiling_aux limit C chunks total hC ht
  · intro t c cs hlt
    simp [process_with_ceiling, hlt]

/-- C6 witness: limit 5 with chunks of at most 3 stored rows each ends
below 5 + 3. -/
theorem record_ceiling_witness : process_with_ceiling 5 0 [3, 3, 3] < 5 + 3 :=
  (record_ceiling 5 3 0 [3, 3, 3] (by decide) (by decide)).1

/-- C7 counterexample.  A row whose required identifier TransactionID is
missing and whose transaction date is unparseable is classified as a date
error: the identifier check does not run first (there is no MissingKey
category at all; missing identifiers fall into the other_errors bucket,
and only after the date and numeric checks), refuting the claimed
MissingKey-first ordering. -/
theorem validation_order_counterexample :
    storeProcessedRow ⟨none, some "C0001", none, none, none, some "10.0",
        some "not-a-date", none, some "20.0"⟩ = .dateError ∧
    (⟨none, some "C0001", none, none, none, some "10.0",
        some "not-a-date", none, some "20.0"⟩ : RawRow).TransactionID = none ∧
    RowOutcome.dateError ≠ RowOutcome.otherError := by
  decide

/-- C7 amended.  The validation order actually implemented by
store_processed_data_postgres, first failure winning: (1) transaction
date fails to normalize → dateError; (2) balance or amount fails to
normalize → numericError; (3) missing or empty identifiers → the
other_errors category (not a dedicated MissingKey category, and checked
last, not first); otherwise the row is stored. -/
theorem validation_order (r : RawRow) :
    (smart_date_conversion r.TransactionDate "TransactionDate" = none →
      storeProcessedRow r = .dateError) ∧
    (∀ d, smart_date_conversion r.TransactionDate "TransactionDate" = some d →
      (robust_numeric_conversion r.CustAccountBalance = none ∨
        robust_numeric_conversion r.TransactionAmountINR = none) →
      storeProcessedRow r = .numericError) ∧
    (∀ d b a, smart_date_conversion r.TransactionDate "TransactionDate" = some d →
      robust_numeric_conversion r.CustAccountBalance = some b →
      robust_numeric_conversion r.TransactionAmountINR = some a →
      (r.TransactionID = none ∨ r.TransactionID = some "" ∨
        r.CustomerID = none ∨ r.CustomerID = some "") →
      storeProcessedRow r = .otherError) ∧
    (∀ d b a tid cid, smart_date_conversion r.TransactionDate "TransactionDate" = some d →
      robust_numeric_conversion r.CustAccountBalance = some b →
      robust_numeric_conversion r.TransactionAmountINR = some a →
      r.TransactionID = some tid → ¬ tid = "" →
      r.CustomerID = some cid → ¬ cid = "" →
      storeProcessedRow r = .stored ⟨tid, cid,
        (smart_date_conversion r.CustomerDOB "CustomerDOB").getD ⟨1900, 1, 1⟩,
        (match r.CustGender with | some g => takeOneChar g | none => "U"),
        r.CustLocation.getD "Unknown", b, d, r.TransactionTime.getD "000000", a⟩) := by
  refine ⟨?_, ?_, ?_, ?_⟩
  · intro h
    simp [storeProcessedRow, h]
  · intro d hd hn
    rcases hn with h | h
    · cases hx : robust_numeric_conversion r.TransactionAmountINR <;>
        simp [storeProcessedRow, hd, h, hx]
    · cases hx : robust_numeric_conversion r.CustAccountBalance <;>
        simp [storeProcessedRow, hd, h, hx]
  · intro d b a hd hb ha hmiss
    rcases hmiss with h | h | h | h
    · cases hy : r.CustomerID <;> simp [storeProcessedRow, hd, hb, ha, h, hy]
    · cases hy : r.CustomerID <;> simp [storeProcessedRow, hd, hb, ha, h, hy]
    · cases hy : r.TransactionID <;> simp [storeProcessedRow, hd, hb, ha, h, hy]
    · cases hy : r.TransactionID <;> simp [storeProcessedRow, hd, hb, ha, h, hy]
  · intro d b a tid cid hd hb ha hti htid hci hcid
    simp [storeProcessedRow, hd, hb, ha, hti, hci, htid, hcid]

/-- C7 amended, witness: each branch of the order at a concrete row. -/
theorem validation_order_witness :
    storeProcessedRow ⟨some "T1", some "C1", none, none, none, some "1",
        some "bad-date", none, some "1"⟩ = .dateError ∧
    storeProcessedRow ⟨some "T1", some "C1", none, none, none, some "oops",
        some "2/8/16", none, some "1"⟩ = .numericError ∧
    storeProcessedRow ⟨none, some "C1", none, none, none, some "1",
        some "2/8/16", none, some "1"⟩ = .otherError ∧
    storeProcessedRow ⟨some "T1", some "C1", none, none, none, some "1",
        some "2/8/16", none, some "1"⟩ = .stored ⟨"T1", "C1", ⟨1900, 1, 1⟩, "U",
        "Unknown", .finite ⟨1, 0⟩, ⟨2016, 2, 8⟩, "000000", .finite ⟨1, 0⟩⟩ :=
  ⟨(validation_order _).1 (by decide),
   (validation_order _).2.1 ⟨2016, 2, 8⟩ (by decide) (Or.inl (by decide)),
   (validation_order _).2.2.1 ⟨2016, 2, 8⟩ (.finite ⟨1, 0⟩) (.finite ⟨1, 0⟩)
     (by decide) (by decide) (by decide) (Or.inl rfl),
   (validation_order _).2.2.2 ⟨2016, 2, 8⟩ (.finite ⟨1, 0⟩) (.finite ⟨1, 0⟩)
     "T1" "C1" (by decide) (by decide) (by decide) rfl (by decide) rfl (by decide)⟩

/-- C8.  Optional fields never cause rejection: a row whose required
identifiers, transaction date, balance and amount are all valid is stored
even when customer_dob is absent or unparseable and gender, location and
time are absent, and the stored record carries the configured defaults —
the 1900-01-01 sentinel date, gender "U", location "Unknown" and time
"000000". -/
theorem optional_fields_defaults (r : RawRow) (d : Date) (b a : PyFloat)
    (tid cid : String)
    (hdob : smart_date_conversion r.CustomerDOB "CustomerDOB" = none)
    (hg : r.CustGender = none) (hl : r.CustLocation = none)
    (ht : r.TransactionTime = none)
    (hd : smart_date_conversion r.TransactionDate "TransactionDate" = some d)
    (hb : robust_numeric_conversion r.CustAccountBalance = some b)
    (ha : robust_numeric_conversion r.TransactionAmountINR = some a)
    (hti : r.TransactionID = some tid) (htid : ¬ tid = "")
    (hci : r.CustomerID = some cid) (hcid : ¬ cid = "") :
    storeProcessedRow r =
      .stored ⟨tid, cid, ⟨1900, 1, 1⟩, "U", "Unknown", b, d, "000000", a⟩ := by
  simp [storeProcessedRow, hd, hdob, hb, ha, hg, hl, ht, hti, hci, htid, hcid]

/-- C8 witness: a concrete row with all optional fields missing. -/
theorem optional_fields_defaults_witness :
    storeProcessedRow ⟨some "T7", some "C7", none, none, none, some "100.5",
        some "2/8/16", none, some "25"⟩ =
      .stored ⟨"T7", "C7", ⟨1900, 1, 1⟩, "U", "Unknown", .finite ⟨1005, -1⟩,
        ⟨2016, 2, 8⟩, "000000", .finite ⟨25, 0⟩⟩ :=
  optional_fields_defaults _ ⟨2016, 2, 8⟩ (.finite ⟨1005, -1⟩) (.finite ⟨25, 0⟩)
    "T7" "C7" rfl rfl rfl rfl (by decide) (by decide) (by decide) rfl
    (by decide) rfl (by decide)

/-- C9 counterexample.  Blank/null input and a malformed non-blank string
produce the identical result None from robust_numeric_conversion, so the
absent case is not distinguishable from the parse-failure case by the
return value, refuting the claimed distinct "absent" result. -/
theorem numeric_absent_indistinguishable :
    robust_numeric_conversion none = none ∧
    robust_numeric_conversion (some "") = none ∧
    robust_numeric_conversion (some "12abc") = none := by
  decide

/-- C9 amended.  Numeric normalization does strip thousands-separators
and whitespace before parsing as a decimal, but blank/null input returns
None — the very same value a malformed non-blank string returns — so
absence and malformedness are indistinguishable to callers, and both lead
to the same numericError rejection when the field is required. -/
theorem numeric_normalization (r : RawRow) (d : Date)
    (hd : smart_date_conversion r.TransactionDate "TransactionDate" = some d) :
    robust_numeric_conversion (some "1,234.50") = some (.finite ⟨12345, -1⟩) ∧
    robust_numeric_conversion (some " 1 000 ") = some (.finite ⟨1, 3⟩) ∧
    robust_numeric_conversion none = none ∧
    robust_numeric_conversion (some "") = none ∧
    robust_numeric_conversion (some "12abc") = none ∧
    (r.CustAccountBalance = some "" → storeProcessedRow r = .numericError) ∧
    (r.CustAccountBalance = some "12abc" → storeProcessedRow r = .numericError) := by
  refine ⟨by decide, by decide, rfl, by decide, by decide, ?_, ?_⟩
  · intro h
    have hb : robust_numeric_conversion r.CustAccountBalance = none := by
      rw [h]
      decide
    cases hx : robust_numeric_conversion r.TransactionAmountINR <;>
      simp [storeProcessedRow, hd, hb, hx]
  · intro h
    have hb : robust_numeric_conversion r.CustAccountBalance = none := by
      rw [h]
      decide
    cases hx : robust_numeric_conversion r.TransactionAmountINR <;>
      simp [storeProcessedRow, hd, hb, hx]

/-- C9 amended, witness: applied at a row with a valid date and a blank
balance. -/
theorem numeric_normalization_witness :
    robust_numeric_conversion (some "1,234.50") = some (.finite ⟨12345, -1⟩) ∧
    storeProcessedRow ⟨some "T", some "C", none, none, none, some "",
        some "2/8/16", none, some "1"⟩ = .numericError :=
  ⟨(numeric_normalization ⟨some "T", some "C", none, none, none, some "",
      some "2/8/16", none, some "1"⟩ ⟨2016, 2, 8⟩ (by decide)).1,
   (numeric_normalization ⟨some "T", some "C", none, none, none, some "",
      some "2/8/16", none, some "1"⟩ ⟨2016, 2, 8⟩ (by decide)).2.2.2.2.2.1 rfl⟩

/-- C10.  DatabaseClient.insert_transaction_batch is atomic with a
store-preserving error path: for a non-empty batch, if the plain INSERT
hits any database error — in particular the duplicate-key IntegrityError —
the whole transaction is rolled back, no row of the batch is committed
and the call returns 0; on success the table grows by exactly the
submitted rows and the call returns the submitted batch length. -/
theorem batch_insert_atomic (now : String) (table : List DbTransaction)
    (dbFailure : Bool) (batch : List DbTransaction) (hne : batch ≠ []) :
    (keyClash table (batch.map (stampProcessedAt now)) = true ∨ dbFailure = true →
      insert_transaction_batch now table dbFailure batch = (table, 0)) ∧
    (keyClash table (batch.map (stampProcessedAt now)) = false → dbFailure = false →
      insert_transaction_batch now table dbFailure batch =
        (table ++ batch.map (stampProcessedAt now), batch.length)) := by
  have hb : batch.isEmpty = false := by
    cases batch with
    | nil => cases hne rfl
    | cons x xs => rfl
  constructor
  · intro h
    rcases h with h | h <;> simp [insert_transaction_batch, hb, h]
  · intro h1 h2
    simp [insert_transaction_batch, hb, h1, h2]

/-- C10 witness: a batch with an internal duplicate key is rolled back
whole; a clean singleton batch is committed, stamped, and counted by its
length. -/
theorem batch_insert_atomic_witness :
    insert_transaction_batch "2025-01-01" [] false
        [⟨"T1", "C1", .finite ⟨5, 0⟩, ⟨2016, 2, 8⟩, "120000", none⟩,
         ⟨"T1", "C1", .finite ⟨5, 0⟩, ⟨2016, 2, 8⟩, "120000", none⟩] = ([], 0) ∧
    insert_transaction_batch "2025-01-01" [] false
        [⟨"T1", "C1", .finite ⟨5, 0⟩, ⟨2016, 2, 8⟩, "120000", none⟩] =
      ([⟨"T1", "C1", .finite ⟨5, 0⟩, ⟨2016, 2, 8⟩, "120000", some "2025-01-01"⟩], 1) :=
  ⟨(batch_insert_atomic "2025-01-01" [] false _ (by decide)).1 (Or.inl (by decide)),
   (batch_insert_atomic "2025-01-01" [] false _ (by decide)).2 (by decide) rfl⟩

end BankBatch
